import Mathlib

/-!
Verification of the gnasty-chat chat-ingestion system.

This file gives a shallow embedding, in Lean 4, of the parts of the Go
code base that the specification's testable properties talk about:

* the broadcast hub (`internal/httpapi/server.go`): subscriber filters and
  the non-blocking per-subscriber send of `Server.Broadcast`;
* the Twitch IRC receiver (`internal/twitchirc/client.go`): the outer
  reconnect/refresh loop, `parsePrivmsg` and `parseTwitchBadges`;
* the YouTube polling receiver (`internal/ytlive/client.go`): the
  bootstrap/poll session state machine, `nextLivePollDelay`,
  `runsTextAndEmotes` and `emojiImages`;
* the token refresher (`internal/twitch/refresh.go` / `token.go`):
  `RefreshManager.Refresh`, `writeTokenFile`, `NormalizeToken`;
* the SQLite sink (`internal/sink/sqlite.go`): `SQLiteSink.Write` over an
  abstract table with the unique indexes of `ensureIndices`, including
  SQLite's validation of the statement's conflict target against them.

Modelling conventions:

* Go strings are Lean `String`s, manipulated through their `List Char`
  representation (for valid UTF-8, Go's byte-level searching and slicing
  coincides with character-level searching and slicing, because UTF-8 is
  self-synchronizing);
* Go's `strings.ToLower` / `ToUpper` / `EqualFold` are modelled on the
  ASCII range only (every use in the verified code compares against ASCII
  constants);
* `time.Time` values are epoch nanoseconds (`Int`), `time.Duration`
  values are nanoseconds (`Int`); the Go zero `time.Time` is represented
  by `0`;
* `time.Now()` is passed in explicitly as a parameter wherever the Go
  code reads the clock;
* Go channels of capacity `n` are lists holding at most `n` pending
  elements; a non-blocking send appends when the list is shorter than the
  capacity and otherwise drops the element;
* `json.Marshal` of the debugging / raw payload fields is abstracted: the
  embedded `ChatMessage` carries the structured values, and the opaque
  JSON strings are produced by simple deterministic stand-in encoders
  (no claim depends on the exact JSON text of those fields).
-/

/-! ## String helpers (Go `strings` package, over `List Char`) -/

/-- Left-trim of whitespace on a character list. -/
def chTrimLeft : List Char → List Char
  | [] => []
  | c :: t => if c.isWhitespace then chTrimLeft t else c :: t

/-- Go `strings.TrimSpace` (whitespace per `Char.isWhitespace`). -/
def strTrim (s : String) : String :=
  ⟨(chTrimLeft (chTrimLeft s.data.reverse).reverse)⟩

/-- Whether the first list is a leading segment of the second. -/
def chHasPrefix [DecidableEq α] : List α → List α → Bool
  | [], _ => true
  | _ :: _, [] => false
  | p :: ps, s :: ss => p == s && chHasPrefix ps ss

/-- Go `strings.HasPrefix s pre`. -/
def strStartsWith (s pre : String) : Bool :=
  chHasPrefix pre.data s.data

/-- Whether `sub` occurs contiguously inside the second list. -/
def chContainsSeq [DecidableEq α] (sub : List α) : List α → Bool
  | [] => sub.isEmpty
  | c :: t => chHasPrefix sub (c :: t) || chContainsSeq sub t

/-- Go `strings.Contains s sub`. -/
def strContains (s sub : String) : Bool :=
  chContainsSeq sub.data s.data

/-- ASCII lower-casing of one character (model of Go's case folding). -/
def asciiLowerChar (c : Char) : Char :=
  if 'A' ≤ c ∧ c ≤ 'Z' then Char.ofNat (c.toNat + 32) else c

/-- ASCII upper-casing of one character. -/
def asciiUpperChar (c : Char) : Char :=
  if 'a' ≤ c ∧ c ≤ 'z' then Char.ofNat (c.toNat - 32) else c

/-- Go `strings.ToLower` (ASCII range). -/
def strToLower (s : String) : String := ⟨s.data.map asciiLowerChar⟩

/-- Go `strings.ToUpper` (ASCII range). -/
def strToUpper (s : String) : String := ⟨s.data.map asciiUpperChar⟩

/-- Go `strings.EqualFold` (ASCII range). -/
def strEqFold (a b : String) : Bool := strToLower a == strToLower b

/-- Split at the first occurrence of `c` (Go `strings.Index` plus the two
slices around the found position); `none` when `c` does not occur. -/
def chSplitFirst (c : Char) : List Char → Option (List Char × List Char)
  | [] => none
  | x :: t =>
    if x = c then some ([], t)
    else (chSplitFirst c t).map (fun p => (x :: p.1, p.2))

/-- Go `strings.Split` on a one-character separator. -/
def splitOnCh (sep : Char) : List Char → List (List Char)
  | [] => [[]]
  | x :: t =>
    match splitOnCh sep t with
    | [] => [[x]]
    | h :: hs => if x = sep then [] :: h :: hs else (x :: h) :: hs

/-- Go `strconv.ParseInt` digit-run accumulator. -/
def digitsValGo : List Char → Nat → Option Nat
  | [], acc => some acc
  | c :: t, acc =>
    if '0' ≤ c ∧ c ≤ '9' then digitsValGo t (acc * 10 + (c.toNat - '0'.toNat))
    else none

/-- Value of a non-empty run of decimal digits. -/
def digitsVal? (l : List Char) : Option Nat :=
  match l with
  | [] => none
  | _ :: _ => digitsValGo l 0

/-- Go `strconv.ParseInt(s, 10, 64)`: optional sign, at least one digit,
64-bit signed range check. -/
def parseInt64? (s : String) : Option Int :=
  let core : List Char → Bool → Option Int := fun ds neg =>
    match digitsVal? ds with
    | none => none
    | some n =>
      if neg then (if n ≤ 9223372036854775808 then some (-(n : Int)) else none)
      else (if n ≤ 9223372036854775807 then some (n : Int) else none)
  match s.data with
  | '+' :: ds => core ds false
  | '-' :: ds => core ds true
  | ds => core ds false

/-- UTF-16 width of one character: astral-plane characters need a
surrogate pair. -/
def utf16CharLen (c : Char) : Nat := if c.toNat ≥ 65536 then 2 else 1

/-- UTF-16 code-unit length of a character list. -/
def utf16LenCh (l : List Char) : Nat := (l.map utf16CharLen).sum

/-- Go `len(utf16.Encode([]rune(s)))`. -/
def utf16Len (s : String) : Nat := utf16LenCh s.data

/-! ## Go map of strings, as an insert-ordered association list -/

/-- Go `m[k] = v` on a `map[string]string` (replace in place or append). -/
def mapSet (m : List (String × String)) (k v : String) : List (String × String) :=
  if m.any (fun p => p.1 == k) then m.map (fun p => if p.1 == k then (k, v) else p)
  else m ++ [(k, v)]

/-- Go `v, ok := m[k]`. -/
def mapGet? (m : List (String × String)) (k : String) : Option String :=
  (m.find? (fun p => p.1 == k)).map (·.2)

/-- Go `m[k]` (zero value `""` when the key is absent). -/
def mapGet (m : List (String × String)) (k : String) : String :=
  (mapGet? m k).getD ""

/-! ## Durations (`time` package constants, in nanoseconds) -/

/-- Go `time.Second` in nanoseconds. -/
def secondNS : Int := 1000000000

/-- Go `time.Minute` in nanoseconds. -/
def minuteNS : Int := 60 * secondNS

/-- Go `time.Hour` in nanoseconds. -/
def hourNS : Int := 60 * minuteNS

/-- Go `time.Millisecond` in nanoseconds. -/
def millisecondNS : Int := 1000000

/-! ## Core data model (`internal/core/model.go`) -/

/-- One platform badge attached to a chat message (`core.ChatBadge`). -/
structure ChatBadge where
  platform : String
  id : String
  version : String
deriving DecidableEq, Repr

/-- Raw badge payload grouped by platform (`core.BadgesRaw`,
a `map[string]map[string]string`). -/
abbrev BadgesRawMap := List (String × List (String × String))

/-- One emote placement inside a message (`ytlive.ytEmoteLocation`).
The Go field `End` is called `stop` here because `end` is a Lean keyword. -/
structure ytEmoteLocation where
  start : Nat
  stop : Nat
deriving DecidableEq, Repr

/-- One emote image variant (`ytlive.ytEmoteImage`). -/
structure ytEmoteImage where
  url : String
  width : Int
  height : Int
deriving DecidableEq, Repr

/-- One emote record (`ytlive.ytEmote`). -/
structure ytEmote where
  id : String
  name : String
  locations : List ytEmoteLocation
  images : List ytEmoteImage
deriving DecidableEq, Repr

/-- The unified message shape (`core.ChatMessage`).  `Ts` is epoch
nanoseconds; the untyped `Emotes`/`Raw`/`Badges` payload fields of the Go
struct are carried as their structured values where a claim needs them
(`Badges`, `BadgesRaw`) and as opaque JSON strings otherwise. -/
structure ChatMessage where
  ID : String := ""
  PlatformMsgID : String := ""
  Ts : Int := 0
  TimestampMS : Int := 0
  Username : String := ""
  Platform : String := ""
  Text : String := ""
  EmotesJSON : String := ""
  RawJSON : String := ""
  BadgesJSON : String := ""
  Colour : String := ""
  Badges : List ChatBadge := []
  BadgesRaw : BadgesRawMap := []
deriving DecidableEq, Repr

/-! ## Read-side filters (`internal/httpapi/filters.go`) -/

/-- Listing order (`httpapi.Order`; renamed because `Order` is taken). -/
inductive ListOrder where
  | desc
  | asc
deriving DecidableEq, Repr

/-- Parsed query filters (`httpapi.Filters`).  `since` is an optional
epoch-nanosecond instant (`*time.Time`). -/
structure Filters where
  platforms : List String := []
  usernames : List String := []
  since : Option Int := none
  limit : Int := 0
  order : ListOrder := .desc
deriving DecidableEq, Repr

/-- `Filters.Matches` from `internal/httpapi` (filters.go): platform
whitelist, username substring match on the lower-cased username, and the
`since` lower bound via `msg.Ts.Before`. -/
def Filters.Matches (f : Filters) (msg : ChatMessage) : Bool :=
  (if f.platforms.length > 0 then
    f.platforms.any (fun p => p == "" || msg.Platform == p)
  else true)
  && (if f.usernames.length > 0 then
        (let username := strToLower msg.Username
         f.usernames.any (fun u => strContains username u))
      else true)
  && (match f.since with
      | some since => if msg.Ts < since then false else true
      | none => true)

/-! ## Broadcast hub (`internal/httpapi/server.go`) -/

/-- One registered subscriber (`httpapi.streamClient`): its bounded
outbound channel, its filters and its transport tag. -/
structure streamClient where
  ch : List ChatMessage
  filters : Filters
  transport : String
deriving DecidableEq, Repr

/-- Capacity of every subscriber channel: `make(chan core.ChatMessage,
256)` in both `handleStream` and `handleWS`. -/
def streamChanCap : Nat := 256

/-- The non-blocking send of `Server.Broadcast`'s
`select { case client.ch <- msg: default: }` on a buffered channel:
enqueue when there is free space, drop otherwise. -/
def chanTrySend (ch : List ChatMessage) (msg : ChatMessage) : List ChatMessage :=
  if ch.length < streamChanCap then ch ++ [msg] else ch

/-- `Server.Broadcast`: evaluate the filter for every registered
subscriber and attempt a non-blocking send to each matching one.  The
subscriber registry is modelled as a list. -/
def Broadcast (clients : List streamClient) (msg : ChatMessage) : List streamClient :=
  clients.map (fun c =>
    if c.filters.Matches msg then { c with ch := chanTrySend c.ch msg } else c)

/-! ## Exponential backoff (shared shape of the four retry loops) -/

/-- One backoff bump: the fragment
`if backoff < cap { backoff *= 2; if backoff > cap { backoff = cap } }`
appearing verbatim (with its respective cap) in `twitchirc.Client.Run`
(generic reconnect and credential-refresh sub-loop), `ytlive.Client.Run`
and `RefreshManager.StartAuto`. -/
def backoffBump (cap b : Int) : Int :=
  if b < cap then (let d := 2 * b; if d > cap then cap else d) else b

/-- Generic reconnect bump of `twitchirc.Client.Run` (cap `60*time.Second`). -/
def ircReconnectBump (b : Int) : Int := backoffBump (60 * secondNS) b

/-- Credential-refresh sub-loop bump of `twitchirc.Client.Run`
(cap `time.Minute`). -/
def ircRefreshBump (b : Int) : Int := backoffBump minuteNS b

/-- Bootstrap/poll bump of `ytlive.Client.Run` (cap `maxBackoff = 60*time.Second`). -/
def ytliveBackoffBump (b : Int) : Int := backoffBump (60 * secondNS) b

/-- Auto-refresh bump of `RefreshManager.StartAuto` (cap `time.Minute`). -/
def autoRefreshBump (b : Int) : Int := backoffBump minuteNS b

/-- Delay slept on the `n`-th consecutive failure (0-based) of a loop that
seeds its backoff with `time.Second` and bumps it after every sleep. -/
def backoffDelays (bump : Int → Int) : Nat → Int
  | 0 => secondNS
  | n + 1 => bump (backoffDelays bump n)

/-- State transition of the `RefreshManager.StartAuto` backoff variable for
one loop iteration: on a failed `Refresh` the timer is reset to the current
backoff which is then bumped; on success `backoff = time.Second`. -/
def autoRefreshAfter (b : Int) (failed : Bool) : Int :=
  if failed then autoRefreshBump b else secondNS

/-! ## Twitch IRC outer loop (`twitchirc.Client.Run`) -/

/-- Observable outcome of one `runOnce` session, as classified by the
outer loop (cancellation, which exits the loop, is not traced).  An
authentication failure carries the number of failed `RefreshNow` calls
before the first successful one (meaningful only when a refresh action is
configured; the sub-loop runs until success or cancellation). -/
inductive SessEvent where
  | sessionOk
  | disconnect
  | authFail (refreshFailures : Nat)
deriving DecidableEq, Repr

/-- Externally visible action of the outer loop. -/
inductive IrcAct where
  | connect
  | sleepGeneric (d : Int)
  | refreshFail
  | refreshOk
  | sleepRefresh (d : Int)
deriving DecidableEq, Repr

/-- Trace of the credential-refresh sub-loop of `twitchirc.Client.Run`:
`RefreshNow` is called; on error the loop sleeps the refresh backoff,
bumps it (cap `time.Minute`) and retries; on success it stops. -/
def refreshTrace : Nat → Int → List IrcAct
  | 0, _ => [.refreshOk]
  | k + 1, rb => .refreshFail :: .sleepRefresh rb :: refreshTrace k (ircRefreshBump rb)

/-- Action trace of `twitchirc.Client.Run` over a finite script of session
outcomes, carrying the generic backoff and the refresh backoff exactly as
the two local variables of the Go loop.  `hasRefresh` is whether
`cfg.RefreshNow` is configured. -/
def ircRun (hasRefresh : Bool) (backoff refreshBackoff : Int) :
    List SessEvent → List IrcAct
  | [] => []
  | ev :: rest =>
    IrcAct.connect ::
      (match ev with
       | .sessionOk => ircRun hasRefresh secondNS secondNS rest
       | .disconnect =>
         IrcAct.sleepGeneric backoff ::
           ircRun hasRefresh (ircReconnectBump backoff) refreshBackoff rest
       | .authFail k =>
         if hasRefresh then
           refreshTrace k refreshBackoff ++ ircRun hasRefresh secondNS secondNS rest
         else
           IrcAct.sleepGeneric backoff ::
             ircRun hasRefresh (ircReconnectBump backoff) refreshBackoff rest)

/-- Whether an action is a connection attempt or a generic-backoff sleep
(used to state that the refresh sub-loop performs neither). -/
def isConnectOrGenericSleep : IrcAct → Bool
  | .connect => true
  | .sleepGeneric _ => true
  | _ => false

/-- Whether an action belongs to the refresh sub-loop. -/
def isRefreshAct : IrcAct → Bool
  | .refreshFail => true
  | .refreshOk => true
  | .sleepRefresh _ => true
  | _ => false

/-! ## YouTube polling session (`ytlive.Client.Run`) -/

/-- `ytlive.defaultLivePollDelay`. -/
def defaultLivePollDelay : Int := 3 * secondNS

/-- `ytlive.nextLivePollDelay`: a positive server-suggested wait wins,
else the fallback, else the 3-second default. -/
def nextLivePollDelay (timeoutMs : Int) (hasTimeout : Bool) (fallback : Int) :
    Int × Bool :=
  if hasTimeout ∧ 0 < timeoutMs then (timeoutMs * millisecondNS, true)
  else if fallback ≤ 0 then (defaultLivePollDelay, false)
  else (fallback, false)

/-- The poll delay chosen by `ytlive.New` from the configuration:
`cfg.PollIntervalMS` when positive, else the 3-second default. -/
def newPollDelay (pollIntervalMS : Int) : Int :=
  if 0 < pollIntervalMS then pollIntervalMS * millisecondNS else defaultLivePollDelay

/-- Mutable session state of `ytlive.Client.Run`: the three cached
bootstrap values, the backoff variable, and the client's fallback poll
delay. -/
structure YtState where
  apiKey : String
  clientVersion : String
  continuation : String
  backoff : Int
  pollDelay : Int
deriving DecidableEq, Repr

/-- The loop's re-bootstrap condition
`apiKey == "" || clientVersion == "" || continuation == ""`. -/
def needsBootstrap (s : YtState) : Bool :=
  s.apiKey == "" || s.clientVersion == "" || s.continuation == ""

/-- Which operation the next loop iteration performs. -/
inductive YtOp where
  | bootstrapOp
  | pollOp
deriving DecidableEq, Repr

/-- Operation selected by the head of the loop body. -/
def nextOp (s : YtState) : YtOp :=
  if needsBootstrap s then .bootstrapOp else .pollOp

/-- Outcome of one network operation of the loop.  `bootstrapPage k v c`
carries the api key, client version and initial continuation extracted
from the fetched watch page (`""` when not found — `Client.bootstrap`
turns any empty one into an error); `pollOk` carries the extracted next
continuation and suggested wait of a successful poll. -/
inductive YtEvent where
  | bootstrapNet
  | bootstrapPage (k v c : String)
  | pollNet
  | pollOk (nextCont : String) (timeoutMs : Int) (hasTimeout : Bool)
deriving DecidableEq, Repr

/-- `apiKey, clientVersion, continuation = "", "", ""`. -/
def ytClear (s : YtState) : YtState :=
  { s with apiKey := "", clientVersion := "", continuation := "" }

/-- One operation of `ytlive.Client.Run` applied to the session state.
In bootstrap phase: a failure (network, or any of the three values
missing from the page) leaves the caches empty and bumps the backoff,
success installs the three values and resets the backoff to the seed.  In
poll phase: a poll error bumps the backoff and clears all three caches; a
successful poll installs the next continuation (clearing all three when
it is empty) and updates the fallback delay as the loop does.  An event
of the wrong phase is ignored. -/
def ytIter (s : YtState) (e : YtEvent) : YtState :=
  if needsBootstrap s then
    match e with
    | .bootstrapNet => { ytClear s with backoff := ytliveBackoffBump s.backoff }
    | .bootstrapPage k v c =>
      if k == "" || v == "" || c == "" then
        { ytClear s with backoff := ytliveBackoffBump s.backoff }
      else
        { s with apiKey := k, clientVersion := v, continuation := c,
                 backoff := secondNS }
    | _ => s
  else
    match e with
    | .pollNet => { ytClear s with backoff := ytliveBackoffBump s.backoff }
    | .pollOk nextCont timeoutMs hasTimeout =>
      let s1 := { s with continuation := nextCont }
      let s2 := if nextCont == "" then ytClear s1 else s1
      let dp := nextLivePollDelay timeoutMs hasTimeout s.pollDelay
      if dp.2 then s2
      else if 0 < dp.1 ∧ s.pollDelay ≠ dp.1 then { s2 with pollDelay := dp.1 }
      else s2
    | _ => s

/-! ## Twitch badge parsing (`twitchirc` tag helpers) -/

/-- Go `splitList` from `twitchirc`: split on the separator, trim each
entry, drop empties (every caller passes a one-character separator). -/
def splitList (s : String) (sep : Char) : List String :=
  if s == "" then []
  else ((splitOnCh sep s.data).map (fun l => strTrim ⟨l⟩)).filter (fun p => p ≠ "")

/-- Go `twitchirc.badgePair`. -/
structure badgePair where
  id : String
  version : String
deriving DecidableEq, Repr

/-- Go `parseBadgePairs`: split the raw badge tag, split each entry at
the first `/` (trimming both sides), keep entries with a nonempty id. -/
def parseBadgePairs (raw : String) (sep : Char) : List badgePair :=
  if raw == "" then []
  else
    (splitList raw sep).filterMap (fun entry =>
      let pair : badgePair :=
        match chSplitFirst '/' entry.data with
        | some (before, after) => { id := strTrim ⟨before⟩, version := strTrim ⟨after⟩ }
        | none => { id := entry, version := "" }
      if pair.id ≠ "" then some pair else none)

/-- Go `parseBadgeInfo`: the override map, built in entry order with Go
map overwrite semantics; entries without a `/` are skipped. -/
def parseBadgeInfo (raw : String) (sep : Char) : List (String × String) :=
  if raw == "" then []
  else
    (splitList raw sep).foldl (fun info entry =>
      match chSplitFirst '/' entry.data with
      | some (before, after) =>
        let id := strTrim ⟨before⟩
        let version := strTrim ⟨after⟩
        if id ≠ "" then mapSet info id version else info
      | none => info) []

/-- Body of the merge loop of `parseTwitchBadges` for one bare badge
pair: the override's version wins when present and nonempty, and an
empty-version broadcaster badge gets the channel name. -/
def mergedBadge (badgeInfo : List (String × String)) (channel : String)
    (pair : badgePair) : ChatBadge :=
  let version :=
    match mapGet? badgeInfo pair.id with
    | some info => if info ≠ "" then info else pair.version
    | none => pair.version
  let version := if version == "" && pair.id == "broadcaster" then channel else version
  { platform := "twitch", id := pair.id, version := version }

/-- Go `parseTwitchBadges`: merge the `badges` and `badge-info` tag
values for the channel, and collect the raw tag payload. -/
def parseTwitchBadges (tags : List (String × String)) (channel : String) :
    List ChatBadge × BadgesRawMap :=
  let badgeList := parseBadgePairs (mapGet tags "badges") ','
  let badgeInfo := parseBadgeInfo (mapGet tags "badge-info") ','
  let badges := badgeList.filterMap (fun pair =>
    if pair.id == "" then none else some (mergedBadge badgeInfo channel pair))
  let badgesRaw : BadgesRawMap :=
    if mapGet tags "badges" ≠ "" ∨ mapGet tags "badge-info" ≠ "" then
      let twitchRaw : List (String × String) :=
        (if mapGet tags "badges" ≠ "" then [("badges", mapGet tags "badges")] else []) ++
        (if mapGet tags "badge-info" ≠ "" then [("badge_info", mapGet tags "badge-info")] else [])
      if twitchRaw.length > 0 then [("twitch", twitchRaw)] else []
    else []
  (badges, badgesRaw)

/-- Badge version merged the way the amended claim words it: the version
comes from the override list when an entry with a nonempty version is
present for the badge id, else from the bare list; a broadcaster badge
whose merged version is empty is assigned the channel name. -/
def specBadgeVersion (info : List (String × String)) (channel : String)
    (pair : badgePair) : String :=
  let fromLists :=
    match mapGet? info pair.id with
    | some v => if v ≠ "" then v else pair.version
    | none => pair.version
  if fromLists = "" ∧ pair.id = "broadcaster" then channel else fromLists

/-- Badge list predicted by the amended claim: one `twitch` badge per
bare pair, with the merged version of `specBadgeVersion`. -/
def specTwitchBadges (badgesTag infoTag channel : String) : List ChatBadge :=
  (parseBadgePairs badgesTag ',').map (fun pair =>
    { platform := "twitch", id := pair.id,
      version := specBadgeVersion (parseBadgeInfo infoTag ',') channel pair })

/-! ## Twitch PRIVMSG parsing (`twitchirc.parsePrivmsg`) -/

/-- Go `unescapeIRC`: IRCv3 tag-value unescaping (`\s \n \r \: \\`; a
trailing backslash is kept; an unknown escape keeps the escaped byte). -/
def unescapeIRC : List Char → List Char
  | [] => []
  | ['\\'] => ['\\']
  | '\\' :: c :: t =>
    (match c with
     | 's' => ' '
     | 'n' => '\n'
     | 'r' => '\r'
     | ':' => ';'
     | '\\' => '\\'
     | other => other) :: unescapeIRC t
  | c :: t => c :: unescapeIRC t

/-- The leading tag block of `parsePrivmsg`: when the line starts with
`@`, the text up to the first space is split on `;` into `key=value`
pairs (`strings.SplitN(kv, "=", 2)` with the value unescaped), and the
rest of the line is trimmed; a line starting with `@` but containing no
space is rejected.  A line with no `@` has no tags. -/
def parseTagsAndRest (line : String) :
    Option (List (String × String) × String) :=
  if strStartsWith line "@" then
    match chSplitFirst ' ' line.data with
    | none => none
    | some (before, after) =>
      let tagPart := before.drop 1
      let rest := strTrim ⟨after⟩
      let tags := (splitOnCh ';' tagPart).foldl (fun tags kv =>
        if kv = [] then tags
        else
          match chSplitFirst '=' kv with
          | some (k, v) => mapSet tags ⟨k⟩ ⟨unescapeIRC v⟩
          | none => mapSet tags ⟨kv⟩ "") []
      some (tags, rest)
  else some ([], line)

/-- Go `extractUser`: strip a leading `:` from the prefix and keep what
precedes the first `!`. -/
def extractUser (pfx : String) : String :=
  let p : String := if strStartsWith pfx ":" then ⟨pfx.data.drop 1⟩ else pfx
  match chSplitFirst '!' p.data with
  | some (before, _) => ⟨before⟩
  | none => p

/-- Deterministic stand-in for `json.Marshal` of a string list
(`twitchirc.encodeList`); no claim depends on the exact JSON text. -/
def encodeList (items : List String) : String :=
  if items.length == 0 then ""
  else "[" ++ String.intercalate "," (items.map (fun s => "\x22" ++ s ++ "\x22")) ++ "]"

/-- Deterministic stand-in for the `json.Marshal` of the raw PRIVMSG
payload (tags, prefix, line); no claim depends on its exact text. -/
def encodeRawPrivmsg (tags : List (String × String)) (pfx original : String) : String :=
  "raw[" ++ String.intercalate ";" (tags.map (fun p => p.1 ++ "=" ++ p.2)) ++
    "|" ++ pfx ++ "|" ++ original ++ "]"

/-- Deterministic stand-in for `twitchirc.encodeBadgesPayload`. -/
def encodeBadgesPayload (badges : List ChatBadge) (raw : BadgesRawMap) : String :=
  if badges.length == 0 && raw.length == 0 then ""
  else
    "badges[" ++
      String.intercalate ","
        (badges.map (fun b => b.platform ++ "/" ++ b.id ++ "/" ++ b.version)) ++
    "]raw[" ++ String.intercalate "," (raw.map (fun p => p.1)) ++ "]"

/-- The line-analysis stage of `twitchirc.parsePrivmsg`: strip the tag
block, require a `:` prefix, a `PRIVMSG #` command for the configured
channel (case-insensitively), and a `:`-led trailing text; yields the tag
map, the IRC prefix and the message text. -/
def privmsgPayload (line channel : String) :
    Option (List (String × String) × String × String) :=
  match parseTagsAndRest line with
  | none => none
  | some (tags, rest0) =>
    if !strStartsWith rest0 ":" then none
    else
      let rest1 : List Char := rest0.data.drop 1
      match chSplitFirst ' ' rest1 with
      | none => none
      | some (pfxCh, afterPfx) =>
        let pfx : String := ⟨pfxCh⟩
        let rest2 := strTrim ⟨afterPfx⟩
        if !strStartsWith (strToUpper rest2) "PRIVMSG #" then none
        else
          let rest3 := rest2.data.drop 9
          match chSplitFirst ' ' rest3 with
          | none => none
          | some (chanCh, afterChan) =>
            let chanName : String := ⟨chanCh⟩
            let rest4 := strTrim ⟨afterChan⟩
            if !strEqFold chanName channel then none
            else if !strStartsWith rest4 ":" then none
            else some (tags, pfx, ⟨rest4.data.drop 1⟩)

/-- The message-assembly stage of `twitchirc.parsePrivmsg`: username from
the display name or the prefix, timestamp from `tmi-sent-ts` or the
receive time, id from the `id` tag or a deterministic
`user-timestampNanos` composite, plus badges, emotes and colour. -/
def mkPrivmsg (tags : List (String × String)) (pfx text line channel : String)
    (nowNS : Int) : ChatMessage :=
  let user0 := extractUser pfx
  let user := if mapGet tags "display-name" ≠ "" then
                mapGet tags "display-name" else user0
  let ts : Int :=
    if mapGet tags "tmi-sent-ts" ≠ "" then
      match parseInt64? (mapGet tags "tmi-sent-ts") with
      | some ms => ms * millisecondNS
      | none => nowNS
    else nowNS
  let id := if mapGet tags "id" = "" then
              user ++ "-" ++ toString ts else mapGet tags "id"
  let bb := parseTwitchBadges tags channel
  let emotes := splitList (mapGet tags "emotes") '/'
  { ID := id,
    PlatformMsgID := id,
    Ts := ts,
    Username := user,
    Platform := "Twitch",
    Text := text,
    EmotesJSON := encodeList emotes,
    RawJSON := encodeRawPrivmsg tags pfx line,
    Badges := bb.1,
    BadgesRaw := bb.2,
    BadgesJSON := encodeBadgesPayload bb.1 bb.2,
    Colour := mapGet tags "color" }

/-- Go `twitchirc.parsePrivmsg`: the two stages composed.  `nowNS` is
the receive time (`time.Now()`). -/
def parsePrivmsg (line channel : String) (nowNS : Int) : Option ChatMessage :=
  (privmsgPayload line channel).map (fun p =>
    mkPrivmsg p.1 p.2.1 p.2.2 line channel nowNS)

/-! ## YouTube message rendering (`ytlive` renderer extraction)

The loosely-typed JSON maps the Go code walks are embedded as the typed
shapes the accessors read: absent string fields are `""`, absent maps are
`none`, exactly as `stringField`/`digMap` yield their zero values. -/

/-- One thumbnail entry of an emoji image (`url`/`width`/`height`). -/
structure YtThumb where
  url : String
  width : Int
  height : Int
deriving DecidableEq, Repr

/-- The `image` map of an emoji: its accessibility label (via
`accessibility.accessibilityData.label`, `""` when absent) and its
thumbnail list. -/
structure YtImagePart where
  accLabel : String
  thumbnails : List YtThumb
deriving DecidableEq, Repr

/-- An `emoji` map: the shortcut list, the `emojiId` field (`""` when
absent) and the optional `image` map. -/
structure YtEmoji where
  shortcuts : List String
  emojiId : String
  image : Option YtImagePart
deriving DecidableEq, Repr

/-- Go `emojiShortcode`: the first shortcut when it trims nonempty, else
`:emojiId:` when the id is nonempty, else `""`. -/
def emojiShortcode (e : YtEmoji) : String :=
  match e.shortcuts with
  | first :: _ =>
    if strTrim first ≠ "" then strTrim first
    else if e.emojiId ≠ "" then ":" ++ e.emojiId ++ ":" else ""
  | [] => if e.emojiId ≠ "" then ":" ++ e.emojiId ++ ":" else ""

/-- Go `emojiAccessibilityLabel`. -/
def emojiAccessibilityLabel (e : YtEmoji) : String :=
  match e.image with
  | some im => im.accLabel
  | none => ""

/-- Go `normalizeImageURL`. -/
def normalizeImageURL (raw : String) : String :=
  let raw := strTrim raw
  if strStartsWith raw "//" then "https:" ++ raw
  else if strStartsWith raw "http://" then "https://" ++ (⟨raw.data.drop 7⟩ : String)
  else raw

/-- Stable insertion of one image into a list kept in descending pixel
area: the element goes in front of the first strictly smaller area. -/
def insertByAreaDesc (x : ytEmoteImage) : List ytEmoteImage → List ytEmoteImage
  | [] => [x]
  | y :: t =>
    if y.width * y.height < x.width * x.height then x :: y :: t
    else y :: insertByAreaDesc x t

/-- Stable sort by pixel area descending (the `sort.SliceStable` call of
`emojiImages`, realized as a stable insertion sort). -/
def sortByAreaDesc (l : List ytEmoteImage) : List ytEmoteImage :=
  l.foldr insertByAreaDesc []

/-- Go `emojiImages`: thumbnails with a nonempty url, urls normalized,
and (when more than one) stable-sorted by pixel area descending. -/
def emojiImages (e : YtEmoji) : List ytEmoteImage :=
  match e.image with
  | none => []
  | some im =>
    let images := im.thumbnails.filterMap (fun t =>
      if t.url == "" then none
      else some { url := normalizeImageURL t.url, width := t.width,
                  height := t.height })
    if images.length > 1 then sortByAreaDesc images else images

/-- One element of a `runs` list: a literal-text run, an emoji run, or a
map holding neither a string `text` nor an `emoji` map. -/
inductive YtRun where
  | textRun (s : String)
  | emojiRun (e : YtEmoji)
  | otherRun
deriving DecidableEq, Repr

/-- Go `runsTextAndEmotes`, with its `strings.Builder` and its UTF-16
offset counter as explicit accumulators (the loop maintains
`off = utf16Len acc`). -/
def runsGo : List YtRun → String → Nat → String × List ytEmote
  | [], acc, _ => (acc, [])
  | .textRun s :: rest, acc, off => runsGo rest (acc ++ s) (off + utf16Len s)
  | .otherRun :: rest, acc, off => runsGo rest acc off
  | .emojiRun e :: rest, acc, off =>
    let sc := emojiShortcode e
    if sc = "" then
      let lbl := emojiAccessibilityLabel e
      if lbl ≠ "" then runsGo rest (acc ++ lbl) (off + utf16Len lbl)
      else runsGo rest acc off
    else
      let off2 := off + utf16Len sc
      let emoteID := if e.emojiId = "" then sc else e.emojiId
      let r := runsGo rest (acc ++ sc) off2
      (r.1, { id := emoteID, name := sc,
              locations := [{ start := off, stop := off2 }],
              images := emojiImages e } :: r.2)

/-- Entry point of `runsTextAndEmotes`. -/
def runsTextAndEmotes (runs : List YtRun) : String × List ytEmote :=
  runsGo runs "" 0

/-- Per-run contribution to the assembled text as the claim words it:
the literal text, or the emoji's shortcode, or its accessibility label
when no shortcode exists. -/
def specRunText (r : YtRun) : String :=
  match r with
  | .textRun s => s
  | .emojiRun e =>
    if emojiShortcode e ≠ "" then emojiShortcode e else emojiAccessibilityLabel e
  | .otherRun => ""

/-- Assembled text as the claim words it: the concatenation of the
per-run contributions. -/
def specText : List YtRun → String
  | [] => ""
  | r :: rest => specRunText r ++ specText rest

/-- The `message` field of a chat renderer: a `runs` list, a
`simpleText`, or neither. -/
inductive YtMessageField where
  | runsMsg (runs : List YtRun)
  | simpleTextMsg (s : String)
  | noMsg
deriving DecidableEq, Repr

/-- Go `messageTextAndEmotes`. -/
def messageTextAndEmotes (m : YtMessageField) : String × List ytEmote :=
  match m with
  | .runsMsg runs => runsTextAndEmotes runs
  | .simpleTextMsg s => (s, [])
  | .noMsg => ("", [])

/-- Go `runText`, used for author names: the literal text, the first
shortcut (unconditionally, even empty), the image accessibility label, or
the emoji id. -/
def runText (part : YtRun) : String :=
  match part with
  | .textRun s => s
  | .emojiRun e =>
    (match e.shortcuts with
     | first :: _ => first
     | [] =>
       match e.image with
       | some im =>
         if im.accLabel ≠ "" then im.accLabel
         else if e.emojiId ≠ "" then e.emojiId else ""
       | none => if e.emojiId ≠ "" then e.emojiId else "")
  | .otherRun => ""

/-- A nested text field such as `authorName`: a `simpleText`, a `runs`
list, or absent. -/
inductive YtNameField where
  | simpleTextName (s : String)
  | runsName (runs : List YtRun)
  | noName
deriving DecidableEq, Repr

/-- Go `textField` (with `runsField` inlined for the runs case). -/
def textField : YtNameField → String
  | .simpleTextName s => s
  | .runsName runs => String.join (runs.map runText)
  | .noName => ""

/-! ## YouTube badge classification (`parseYouTubeBadges`) -/

/-- One badge-renderer entry after unwrapping
`liveChatAuthorBadgeRenderer`/`metadataBadgeRenderer`: the five strings
`interpretBadge` reads (each `""` when absent). -/
structure YtBadgeEntry where
  style : String
  tooltip : String
  label : String
  iconType : String
  accLabel : String
deriving DecidableEq, Repr

/-- Regexp `\s` of Go's RE2: `[\t\n\f\r ]`. -/
def isRegexSpace (c : Char) : Bool :=
  c == ' ' || c == '\t' || c == '\n' || c == '\x0c' || c == '\r'

/-- Leftmost match of `\(([^)]+)\)`: the first parenthesized nonempty
`)`-free group. -/
def matchParen : List Char → Option String
  | [] => none
  | '(' :: t =>
    let inner := t.takeWhile (fun c => c ≠ ')')
    let rest := t.dropWhile (fun c => c ≠ ')')
    if inner ≠ [] ∧ rest ≠ [] then some ⟨inner⟩ else matchParen t
  | _ :: t => matchParen t

/-- Leftmost match of `(?i)(\d+\s*(?:w₁|w₂|...))` with Go's
leftmost-first alternation: a digit run, optional whitespace, then the
first alternative that is a case-insensitive prefix of the remainder;
the capture is the original text of the match. -/
def matchNumWord (words : List String) : List Char → Option String
  | [] => none
  | c :: t =>
    (if c.isDigit then
      let digits := (c :: t).takeWhile Char.isDigit
      let rest1 := (c :: t).dropWhile Char.isDigit
      let ws := rest1.takeWhile isRegexSpace
      let rest2 := rest1.dropWhile isRegexSpace
      match words.find? (fun w => chHasPrefix (strToLower w).data
          (rest2.map asciiLowerChar)) with
      | some w => some ⟨digits ++ ws ++ rest2.take w.length⟩
      | none => matchNumWord words t
    else matchNumWord words t)

/-- Leftmost match of `(?i)(word\s*\d+)`: the word (case-insensitively),
optional whitespace, then a digit run; the capture is the original text. -/
def matchWordNum (word : String) : List Char → Option String
  | [] => none
  | c :: t =>
    (if chHasPrefix (strToLower word).data ((c :: t).map asciiLowerChar) then
      let rest1 := (c :: t).drop word.length
      let ws := rest1.takeWhile isRegexSpace
      let rest2 := rest1.dropWhile isRegexSpace
      let digits := rest2.takeWhile Char.isDigit
      if digits ≠ [] then
        some ⟨(c :: t).take word.length ++ ws ++ digits⟩
      else matchWordNum word t
    else matchWordNum word t)

/-- Go `extractBadgeVersion`: for each candidate text in order, the first
of the four patterns that matches wins, and the capture is trimmed. -/
def extractBadgeVersion : List String → String
  | [] => ""
  | text :: rest =>
    let text := strTrim text
    if text = "" then extractBadgeVersion rest
    else
      match (matchParen text.data).orElse (fun _ =>
            (matchNumWord ["month", "months", "year", "years"] text.data).orElse (fun _ =>
            (matchWordNum "level" text.data).orElse (fun _ =>
             matchWordNum "tier" text.data))) with
      | some m => strTrim m
      | none => extractBadgeVersion rest

/-- Go `interpretBadge`: classify one badge entry by substring matching
over the lower-cased concatenation of its five text fields. -/
def interpretBadge (entry : YtBadgeEntry) : String × String :=
  let style := strToLower entry.style
  let tooltip := entry.tooltip
  let label := entry.label
  let iconType := strToLower entry.iconType
  let accLabel := entry.accLabel
  let combined :=
    strToLower (String.intercalate " " [style, tooltip, label, iconType, accLabel])
  if strContains combined "owner" then ("owner", "")
  else if strContains combined "moderator" then ("moderator", "")
  else if strContains combined "verified" || strContains iconType "check" then
    ("verified", "")
  else if strContains combined "member" then
    ("member", extractBadgeVersion [tooltip, label, accLabel])
  else ("", "")

/-- A chat text-message renderer, with the fields `buildMessage` and
`parseYouTubeBadges` read; the raw values of the three badge keys are
opaque (their exact payload reaches only the abstracted raw map). -/
structure YtRenderer where
  id : String
  authorName : YtNameField
  message : YtMessageField
  authorBadges : Option (List YtBadgeEntry)
  authorBadgesWithMetadata : Option (List YtBadgeEntry)
  authorExternalChannelId : Option String
  timestampUsec : Option String
deriving DecidableEq, Repr

/-- Go `parseYouTubeBadges`: collect the raw payload of the three badge
keys (values abstracted to `""` except the channel id), then classify the
entries of both badge lists, de-duplicating on `id|version`. -/
def parseYouTubeBadges (renderer : YtRenderer) : List ChatBadge × BadgesRawMap :=
  let rawPayload : List (String × String) :=
    (match renderer.authorBadges with
     | some _ => [("authorBadges", "")] | none => []) ++
    (match renderer.authorBadgesWithMetadata with
     | some _ => [("authorBadgesWithMetadata", "")] | none => []) ++
    (match renderer.authorExternalChannelId with
     | some v => [("authorExternalChannelId", v)] | none => [])
  let step := fun (acc : List ChatBadge × List String) (entry : YtBadgeEntry) =>
    let iv := interpretBadge entry
    if iv.1 == "" then acc
    else
      let key := iv.1 ++ "|" ++ iv.2
      if acc.2.contains key then acc
      else (acc.1 ++ [{ platform := "youtube", id := iv.1, version := iv.2 }],
            acc.2 ++ [key])
  let entries := (renderer.authorBadges.getD []) ++
                 (renderer.authorBadgesWithMetadata.getD [])
  let acc := entries.foldl step ([], [])
  let raw : BadgesRawMap :=
    if rawPayload.length > 0 then [("youtube", rawPayload)] else []
  (acc.1, raw)

/-- Go `timestampField` on `timestampUsec`: a parseable string is
microseconds (`time.Unix(0, n*1000)`); everything else falls back to the
receive time (the zero `time.Time` check of the Go code fires exactly
when the field is absent or unparseable). -/
def timestampField (f : Option String) (nowNS : Int) : Int :=
  match f with
  | none => nowNS
  | some s =>
    match parseInt64? s with
    | some n => n * 1000
    | none => nowNS

/-- Deterministic stand-in for `json.Marshal` of the emote list; no
claim depends on its exact text. -/
def encodeEmotes (emotes : List ytEmote) : String :=
  "emotes[" ++ String.intercalate "," (emotes.map (fun e => e.id ++ ":" ++ e.name)) ++ "]"

/-- Deterministic stand-in for `json.Marshal` of the raw renderer; no
claim depends on its exact text. -/
def encodeRenderer (r : YtRenderer) : String := "renderer[" ++ r.id ++ "]"

/-- Go `ytlive.buildMessage`: assemble the normalized message from a
renderer; empty text rejects the renderer, a missing id is synthesized
from the receive time. -/
def buildMessage (renderer : YtRenderer) (nowNS : Int) : Except String ChatMessage :=
  let bb := parseYouTubeBadges renderer
  let te := messageTextAndEmotes renderer.message
  let msg0 : ChatMessage := {
    ID := renderer.id,
    PlatformMsgID := renderer.id,
    Username := textField renderer.authorName,
    Platform := "YouTube",
    Text := te.1,
    Badges := bb.1,
    BadgesRaw := bb.2,
    EmotesJSON := if te.2.length > 0 then encodeEmotes te.2 else "",
    RawJSON := encodeRenderer renderer }
  if msg0.Text == "" then .error "empty text"
  else
    let id1 := if msg0.ID == "" then "yt-" ++ toString nowNS else msg0.ID
    let pm1 := if msg0.PlatformMsgID == "" then id1 else msg0.PlatformMsgID
    .ok { msg0 with ID := id1, PlatformMsgID := pm1,
                    Ts := timestampField renderer.timestampUsec nowNS }

/-! ## Token refresher (`internal/twitch`) -/

/-- Go `twitch.NormalizeToken`: trim, and ensure the `oauth:` lead. -/
def NormalizeToken (s : String) : String :=
  let trimmed := strTrim s
  if trimmed == "" then ""
  else if strStartsWith trimmed "oauth:" then trimmed
  else "oauth:" ++ trimmed

/-- One completed token-file write: content, permission bits and whether
the file was fsynced (`writeTokenFile` opens with and chmods to `0600`
and calls `Sync`).  File-system failures are outside the model. -/
structure TokenFileWrite where
  path : String
  content : String
  perm : Nat
  synced : Bool
deriving DecidableEq, Repr

/-- Go `writeTokenFile` (file-system errors abstracted away). -/
def writeTokenFile (path token : String) : Except String TokenFileWrite :=
  if strTrim path == "" then .error "twitch: token file path is empty"
  else .ok { path := path, content := token ++ "\n", perm := 0o600, synced := true }

/-- The fields of `twitch.RefreshManager` that `Refresh` reads. -/
structure RefreshConfig where
  clientID : String
  clientSecret : String
  refreshToken : String
  tokenFile : String
deriving DecidableEq, Repr

/-- The decoded `refreshResponse` of the provider, together with the
HTTP status code (transport and JSON-decode failures are abstracted: a
call that got this far has a decoded body). -/
structure RefreshHTTPResponse where
  statusCode : Nat
  accessToken : String
  expiresIn : Int
  status : Int
  message : String
  errorStr : String
  errorDesc : String
deriving DecidableEq, Repr

/-- The error text of the non-success branch of `Refresh`: the first
nonempty of the trimmed `message`, `error_description`, `error` fields,
else `unexpected status N`. -/
def refreshErrMessage (resp : RefreshHTTPResponse) : String :=
  let msg := strTrim resp.message
  let msg := if msg == "" then strTrim resp.errorDesc else msg
  let msg := if msg == "" then strTrim resp.errorStr else msg
  if msg == "" then "unexpected status " ++ toString resp.statusCode else msg

/-- Go `RefreshManager.Refresh` given the provider's decoded response:
the result (token and measured lifetime, or the error), paired with the
list of token-file writes performed. -/
def Refresh (cfg : RefreshConfig) (resp : RefreshHTTPResponse) :
    Except String (String × Int) × List TokenFileWrite :=
  let clientID := strTrim cfg.clientID
  let clientSecret := strTrim cfg.clientSecret
  let refreshToken := strTrim cfg.refreshToken
  let tokenFile := strTrim cfg.tokenFile
  if clientID == "" || clientSecret == "" || refreshToken == "" then
    (.error "twitch: refresh requires client credentials and refresh token", [])
  else if tokenFile == "" then
    (.error "twitch: token file is required for refresh", [])
  else if resp.statusCode ≠ 200 then
    (.error (refreshErrMessage resp), [])
  else
    let token := strTrim resp.accessToken
    if token == "" then (.error "twitch: refresh returned empty token", [])
    else
      let expiresIn := if resp.expiresIn ≤ 0 then hourNS else resp.expiresIn * secondNS
      match writeTokenFile tokenFile (NormalizeToken token) with
      | .error e => (.error e, [])
      | .ok w => (.ok (token, expiresIn), [w])

/-! ## SQLite sink (`internal/sink/sqlite.go`) -/

/-- C1: `Broadcast` evaluates the filter against the message for each
subscriber independently; a matching subscriber with free space in its
256-slot channel gets the message appended, a matching subscriber with a
full channel drops it, and every other subscriber's queue is untouched —
subscriber `i` of the result depends only on subscriber `i` of the input,
so no subscriber (and no producer: `Broadcast` is a total function, it
never blocks) is affected by another subscriber's full queue. -/
theorem broadcast_filtered_nonblocking_send (clients : List streamClient)
    (msg : ChatMessage) :
    (Broadcast clients msg).length = clients.length ∧
    ∀ i : Nat,
      (Broadcast clients msg).get? i = (clients.get? i).map (fun c =>
        if c.filters.Matches msg then
          { c with ch := if c.ch.length < streamChanCap then c.ch ++ [msg] else c.ch }
        else c) := by
  constructor
  · simp [Broadcast]
  · intro i
    simp only [Broadcast, List.get?_eq_getElem?, List.getElem?_map]
    cases clients[i]? with
    | none => rfl
    | some c =>
      simp only [Option.map_some']
      by_cases h : c.filters.Matches msg = true
      · simp [h, chanTrySend]
      · simp [h]

/-! ## Backoff helper lemmas -/

/-- A bump never decreases a non-negative backoff. -/
theorem backoffBump_ge (cap b : Int) (h : 0 ≤ b) : b ≤ backoffBump cap b := by
  simp only [backoffBump]
  split
  · split <;> omega
  · omega

/-- A bump never pushes a backoff past the cap. -/
theorem backoffBump_le_cap (cap b : Int) (h : b ≤ cap) : backoffBump cap b ≤ cap := by
  simp only [backoffBump]
  split
  · split <;> omega
  · omega

/-- The delay sequence stays between the seed and the cap. -/
theorem backoffDelays_invariant (cap : Int) (hcap : secondNS ≤ cap) (n : Nat) :
    secondNS ≤ backoffDelays (backoffBump cap) n ∧
    backoffDelays (backoffBump cap) n ≤ cap := by
  induction n with
  | zero => exact ⟨le_refl _, hcap⟩
  | succ n ih =>
    refine ⟨le_trans ih.1 ?_, backoffBump_le_cap cap _ ih.2⟩
    exact backoffBump_ge cap _ (le_trans (by norm_num [secondNS]) ih.1)

/-- The delay sequence is non-decreasing. -/
theorem backoffDelays_mono (cap : Int) (hcap : secondNS ≤ cap) (n : Nat) :
    backoffDelays (backoffBump cap) n ≤ backoffDelays (backoffBump cap) (n + 1) :=
  backoffBump_ge cap _
    (le_trans (by norm_num [secondNS]) (backoffDelays_invariant cap hcap n).1)

/-! ## Claim C3 -/

/-- C3: in all four retry loops (IRC generic reconnect, IRC
credential-refresh sub-loop, YouTube bootstrap/poll, token auto-refresh)
the delay sequence across consecutive failures is non-decreasing and
capped (60 s for the receivers, 1 min for the refresh loops), and one
success resets the delay to the 1-second seed: a clean IRC session and a
successful refresh both reset both IRC backoff variables, a successful
auto-refresh resets the auto-refresh backoff, and a successful YouTube
bootstrap resets the polling backoff. -/
theorem retry_backoff_monotone_capped_reset :
    (∀ n, backoffDelays ircReconnectBump n ≤ backoffDelays ircReconnectBump (n + 1) ∧
          backoffDelays ircReconnectBump n ≤ 60 * secondNS) ∧
    (∀ n, backoffDelays ircRefreshBump n ≤ backoffDelays ircRefreshBump (n + 1) ∧
          backoffDelays ircRefreshBump n ≤ minuteNS) ∧
    (∀ n, backoffDelays ytliveBackoffBump n ≤ backoffDelays ytliveBackoffBump (n + 1) ∧
          backoffDelays ytliveBackoffBump n ≤ 60 * secondNS) ∧
    (∀ n, backoffDelays autoRefreshBump n ≤ backoffDelays autoRefreshBump (n + 1) ∧
          backoffDelays autoRefreshBump n ≤ minuteNS) ∧
    (∀ b, autoRefreshAfter b false = secondNS) ∧
    (∀ hasRefresh b rb evs,
        ircRun hasRefresh b rb (.sessionOk :: evs) =
          .connect :: ircRun hasRefresh secondNS secondNS evs) ∧
    (∀ b rb k evs,
        ircRun true b rb (.authFail k :: evs) =
          .connect :: (refreshTrace k rb ++ ircRun true secondNS secondNS evs)) ∧
    (∀ s k v c, needsBootstrap s = true → k ≠ "" → v ≠ "" → c ≠ "" →
        (ytIter s (.bootstrapPage k v c)).backoff = secondNS) := by
  have h60 : secondNS ≤ 60 * secondNS := by norm_num [secondNS]
  have hmin : secondNS ≤ minuteNS := by norm_num [secondNS, minuteNS]
  refine ⟨fun n => ⟨backoffDelays_mono _ h60 n, (backoffDelays_invariant _ h60 n).2⟩,
          fun n => ⟨backoffDelays_mono _ hmin n, (backoffDelays_invariant _ hmin n).2⟩,
          fun n => ⟨backoffDelays_mono _ h60 n, (backoffDelays_invariant _ h60 n).2⟩,
          fun n => ⟨backoffDelays_mono _ hmin n, (backoffDelays_invariant _ hmin n).2⟩,
          fun b => rfl, fun hasRefresh b rb evs => rfl, fun b rb k evs => by
            simp [ircRun], fun s k v c hs hk hv hc => ?_⟩
  simp [ytIter, hs, hk, hv, hc]

/-- Witness for C3 at concrete inputs. -/
theorem retry_backoff_monotone_capped_reset_witness :
    (backoffDelays ircReconnectBump 7 ≤ backoffDelays ircReconnectBump 8 ∧
     backoffDelays ircReconnectBump 7 ≤ 60 * secondNS) ∧
    (ytIter ⟨"", "", "", 5 * secondNS, 3 * secondNS⟩
        (.bootstrapPage "key" "ver" "cont")).backoff = secondNS :=
  ⟨retry_backoff_monotone_capped_reset.1 7,
   retry_backoff_monotone_capped_reset.2.2.2.2.2.2.2
     ⟨"", "", "", 5 * secondNS, 3 * secondNS⟩ "key" "ver" "cont" rfl
     (by decide) (by decide) (by decide)⟩

/-- The refresh sub-loop never attempts a connection and never sleeps the
generic backoff. -/
theorem refreshTrace_no_connect (k : Nat) (rb : Int) :
    (refreshTrace k rb).all (fun a => !isConnectOrGenericSleep a) = true := by
  induction k generalizing rb with
  | zero => rfl
  | succ k ih =>
    simp only [refreshTrace, List.all_cons, ih]
    rfl

/-- With no refresh action configured, the loop performs no refresh
action at all. -/
theorem ircRun_no_refresh_acts (evs : List SessEvent) :
    ∀ b rb, (ircRun false b rb evs).all (fun a => !isRefreshAct a) = true := by
  induction evs with
  | nil => intro b rb; rfl
  | cons ev rest ih =>
    intro b rb
    cases ev with
    | sessionOk =>
      simp only [ircRun, List.all_cons, ih]
      rfl
    | disconnect =>
      simp only [ircRun, List.all_cons, ih]
      rfl
    | authFail k =>
      simp only [ircRun, Bool.false_eq_true, if_false, List.all_cons, ih]
      rfl

/-! ## Claim C4 -/

/-- C4: when a session ends with the authentication-failure error and a
refresh action is configured, the loop runs the refresh sub-loop (whose
actions are only refresh calls and refresh-backoff sleeps bumped with the
1 s seed / 60 s cap refresh bump — never a connection attempt or a
generic-backoff sleep) before anything else, and the action immediately
after the sub-loop's success is the next connection attempt (every
iteration starts with `connect`), with both backoffs reset to the seed;
when no refresh action is configured, the loop sleeps the generic backoff,
bumps it, and never invokes any refresh action. -/
theorem auth_failure_refresh_routing :
    (∀ b rb k rest,
        ircRun true b rb (.authFail k :: rest) =
          .connect :: (refreshTrace k rb ++ ircRun true secondNS secondNS rest)) ∧
    (∀ k rb, (refreshTrace k rb).all (fun a => !isConnectOrGenericSleep a) = true) ∧
    (∀ hasRefresh b rb ev rest,
        (ircRun hasRefresh b rb (ev :: rest)).head? = some .connect) ∧
    (∀ k rb, refreshTrace (k + 1) rb =
        .refreshFail :: .sleepRefresh rb :: refreshTrace k (ircRefreshBump rb)) ∧
    (∀ b rb k rest,
        ircRun false b rb (.authFail k :: rest) =
          .connect :: .sleepGeneric b ::
            ircRun false (ircReconnectBump b) rb rest) ∧
    (∀ b rb evs, (ircRun false b rb evs).all (fun a => !isRefreshAct a) = true) := by
  exact ⟨fun b rb k rest => by simp [ircRun],
         fun k rb => refreshTrace_no_connect k rb,
         fun hasRefresh b rb ev rest => by simp [ircRun],
         fun k rb => rfl,
         fun b rb k rest => by simp [ircRun],
         fun b rb evs => ircRun_no_refresh_acts evs b rb⟩

/-! ## Claim C5 -/

/-- C5: a poll failure discards all three cached session values and the
next operation is a bootstrap; a successful poll with an empty next
continuation likewise discards all three and forces a re-bootstrap; a
successful bootstrap resets the backoff to the 1-second seed (and puts
the loop into poll phase). -/
theorem yt_session_discard_and_reset (s : YtState) (h : needsBootstrap s = false) :
    ((ytIter s .pollNet).apiKey = "" ∧ (ytIter s .pollNet).clientVersion = "" ∧
     (ytIter s .pollNet).continuation = "" ∧
     nextOp (ytIter s .pollNet) = .bootstrapOp) ∧
    (∀ tms ht,
      (ytIter s (.pollOk "" tms ht)).apiKey = "" ∧
      (ytIter s (.pollOk "" tms ht)).clientVersion = "" ∧
      (ytIter s (.pollOk "" tms ht)).continuation = "" ∧
      nextOp (ytIter s (.pollOk "" tms ht)) = .bootstrapOp) ∧
    (∀ s₀ k v c, needsBootstrap s₀ = true → k ≠ "" → v ≠ "" → c ≠ "" →
      (ytIter s₀ (.bootstrapPage k v c)).backoff = secondNS ∧
      nextOp (ytIter s₀ (.bootstrapPage k v c)) = .pollOp) := by
  refine ⟨?_, ?_, ?_⟩
  · simp only [ytIter, h, Bool.false_eq_true, if_false]
    simp [ytClear, nextOp, needsBootstrap]
  · intro tms ht
    simp only [ytIter, h, Bool.false_eq_true, if_false]
    split
    · simp [ytClear, nextOp, needsBootstrap]
    · split <;> simp [ytClear, nextOp, needsBootstrap]
  · intro s₀ k v c hs hk hv hc
    simp only [ytIter, hs, if_true]
    simp [hk, hv, hc, nextOp, needsBootstrap]

/-- Witness for C5 at a concrete in-poll-phase state. -/
theorem yt_session_discard_and_reset_witness :
    needsBootstrap ⟨"key", "ver", "cont", secondNS, 3 * secondNS⟩ = false ∧
    ((ytIter ⟨"key", "ver", "cont", secondNS, 3 * secondNS⟩ .pollNet).continuation = "" ∧
     nextOp (ytIter ⟨"key", "ver", "cont", secondNS, 3 * secondNS⟩ .pollNet) =
       .bootstrapOp) :=
  ⟨by decide,
   ((yt_session_discard_and_reset ⟨"key", "ver", "cont", secondNS, 3 * secondNS⟩
      (by decide)).1).2.2⟩

/-! ## Claim C6 -/

/-- C6: a poll response exposing a positive suggested wait schedules the
next poll after exactly that many milliseconds; otherwise the configured
fallback interval is used when positive, and the fallback configured by
`New` is the 3-second default whenever no positive poll interval is
configured. -/
theorem next_poll_delay_pacing :
    (∀ tms fallback, (0:Int) < tms →
        nextLivePollDelay tms true fallback = (tms * millisecondNS, true)) ∧
    (∀ tms ht fallback, ¬(ht = true ∧ (0:Int) < tms) → (0:Int) < fallback →
        nextLivePollDelay tms ht fallback = (fallback, false)) ∧
    (∀ ms, ms ≤ (0:Int) → newPollDelay ms = 3 * secondNS) := by
  refine ⟨fun tms fallback h => ?_, fun tms ht fallback h hf => ?_, fun ms h => ?_⟩
  · simp [nextLivePollDelay, h]
  · rw [nextLivePollDelay, if_neg (by simpa using h), if_neg (by omega)]
  · have h0 : ¬((0:Int) < ms) := by omega
    simp [newPollDelay, defaultLivePollDelay, h0]

/-- Witness for C6 at concrete suggested waits. -/
theorem next_poll_delay_pacing_witness :
    nextLivePollDelay 5000 true (3 * secondNS) = (5000 * millisecondNS, true) ∧
    nextLivePollDelay 0 false (7 * secondNS) = (7 * secondNS, false) ∧
    newPollDelay 0 = 3 * secondNS :=
  ⟨next_poll_delay_pacing.1 5000 (3 * secondNS) (by decide),
   next_poll_delay_pacing.2.1 0 false (7 * secondNS) (by simp) (by decide),
   next_poll_delay_pacing.2.2 0 (by decide)⟩

/-! ## Badge-merge helper lemmas -/

/-- The merge-loop body agrees with the amended claim's version rule. -/
theorem mergedBadge_eq_spec (info : List (String × String)) (channel : String)
    (p : badgePair) :
    mergedBadge info channel p =
      { platform := "twitch", id := p.id,
        version := specBadgeVersion info channel p } := by
  unfold mergedBadge specBadgeVersion
  cases hm : mapGet? info p.id with
  | none =>
    simp only [hm]
    by_cases h1 : p.version = "" <;> by_cases h2 : p.id = "broadcaster" <;>
      simp [h1, h2]
  | some v =>
    simp only [hm]
    by_cases hv : v ≠ "" <;>
      [skip; simp only [hv, if_neg]] <;>
    · set w := if v ≠ "" then v else p.version with hw
      by_cases h1 : w = "" <;> by_cases h2 : p.id = "broadcaster" <;> simp [h1, h2]

/-- Every pair produced by `parseBadgePairs` has a nonempty id. -/
theorem parseBadgePairs_id_ne (raw : String) (sep : Char) :
    ∀ p ∈ parseBadgePairs raw sep, p.id ≠ "" := by
  intro p hp
  unfold parseBadgePairs at hp
  split at hp
  · simp at hp
  · rw [List.mem_filterMap] at hp
    obtain ⟨entry, _, he⟩ := hp
    dsimp only at he
    split at he
    · obtain rfl := (Option.some.injEq _ _).mp he
      assumption
    · exact Option.noConfusion he

/-- On pair lists with nonempty ids the merge loop is a plain map. -/
theorem filterMap_merge_eq (info : List (String × String)) (channel : String) :
    ∀ l : List badgePair, (∀ p ∈ l, p.id ≠ "") →
      l.filterMap (fun pair => if pair.id == "" then none
          else some (mergedBadge info channel pair)) =
      l.map (fun pair =>
        { platform := "twitch", id := pair.id,
          version := specBadgeVersion info channel pair }) := by
  intro l
  induction l with
  | nil => intro _; rfl
  | cons p t ih =>
    intro h
    have hp : p.id ≠ "" := h p (List.mem_cons_self p t)
    have ih' := ih (fun q hq => h q (List.mem_cons_of_mem p hq))
    simp only [mergedBadge_eq_spec] at ih'
    simp only [List.filterMap_cons, List.map_cons,
      beq_eq_false_iff_ne.mpr hp, mergedBadge_eq_spec, ih']
    rfl

/-! ## Claim C2 (corrected) -/

/-- C2 counterexample: with badge list `subscriber/6,broadcaster/abc` and
override list `subscriber/`, an override entry for `subscriber` IS
present (with an empty version), yet the merged subscriber version is the
bare "6" rather than the override's ""; and the broadcaster badge's
version "abc" is not numeric, yet the channel name is not substituted.
So the claim's "version comes from the override list whenever an entry
for that badge id is present" and "a broadcaster badge lacking a numeric
version gets the channel name" are both false as stated. -/
theorem badge_merge_counterexample :
    mapGet? (parseBadgeInfo "subscriber/" ',') "subscriber" = some "" ∧
    (parseTwitchBadges [("badges", "subscriber/6,broadcaster/abc"),
        ("badge-info", "subscriber/")] "chan").1 =
      [⟨"twitch", "subscriber", "6"⟩, ⟨"twitch", "broadcaster", "abc"⟩] ∧
    ("6" : String) ≠ "" ∧ ("abc" : String) ≠ "chan" := by decide

/-- C2 (amended): a badge's version comes from the `badge-info` override
list when an entry with a NONEMPTY version is present for that badge id,
else from the bare `badges` list, and a broadcaster badge whose merged
version is EMPTY is assigned the channel name; in particular the two
concrete examples of the claim hold as stated. -/
theorem badge_merge_amended (tags : List (String × String)) (channel : String) :
    (parseTwitchBadges tags channel).1 =
      specTwitchBadges (mapGet tags "badges") (mapGet tags "badge-info") channel ∧
    (parseTwitchBadges [("badges", "moderator/1,subscriber/6,partner/1"),
        ("badge-info", "subscriber/24")] "chan").1 =
      [⟨"twitch", "moderator", "1"⟩, ⟨"twitch", "subscriber", "24"⟩,
       ⟨"twitch", "partner", "1"⟩] ∧
    (parseTwitchBadges [("badges", "broadcaster/")] "chan").1 =
      [⟨"twitch", "broadcaster", "chan"⟩] := by
  refine ⟨?_, by decide, by decide⟩
  simp only [parseTwitchBadges, specTwitchBadges]
  exact filterMap_merge_eq _ _ _ (parseBadgePairs_id_ne _ _)

/-! ## Message-identity helper lemmas -/

/-- A string containing a literal dash is never empty. -/
theorem append_dash_ne_empty (a b : String) : a ++ "-" ++ b ≠ "" := by
  intro hcontra
  have h2 : (a ++ "-" ++ b).data = ("" : String).data := by rw [hcontra]
  simp [String.data_append] at h2

/-- A string with the `yt-` lead is never empty. -/
theorem str_yt_ne_empty (b : String) : ("yt-" : String) ++ b ≠ "" := by
  intro hcontra
  have h2 : (("yt-" : String) ++ b).data = ("" : String).data := by rw [hcontra]
  simp [String.data_append] at h2

/-- Characterization of a successful `parsePrivmsg`: the platform is
`Twitch`, the id equals the platform message id, it is never empty, and
when the tag map supplies a native `id` it is exactly that value. -/
theorem parsePrivmsg_char (line channel : String) (nowNS : Int) (msg : ChatMessage)
    (h : parsePrivmsg line channel nowNS = some msg) :
    msg.Platform = "Twitch" ∧ msg.PlatformMsgID = msg.ID ∧ msg.ID ≠ "" ∧
    ∀ tags pfx text, privmsgPayload line channel = some (tags, pfx, text) →
      mapGet tags "id" ≠ "" → msg.ID = mapGet tags "id" := by
  rw [parsePrivmsg, Option.map_eq_some'] at h
  obtain ⟨⟨tags, pfx, text⟩, hp, rfl⟩ := h
  refine ⟨rfl, rfl, ?_, ?_⟩
  · simp only [mkPrivmsg]
    by_cases hid : mapGet tags "id" = ""
    · simp only [hid, if_pos]
      exact append_dash_ne_empty _ _
    · simp only [if_neg hid]
      exact hid
  · intro tags' pfx' text' hp' hne
    rw [hp] at hp'
    obtain ⟨rfl, rfl, rfl⟩ : tags = tags' ∧ pfx = pfx' ∧ text = text' := by
      simpa using hp'
    simp only [mkPrivmsg, if_neg hne]

/-- Characterization of a successful `buildMessage`: the platform is
`YouTube` and the id is never empty (synthesized when the renderer has
none). -/
theorem buildMessage_char (renderer : YtRenderer) (nowNS : Int) (msg : ChatMessage)
    (h : buildMessage renderer nowNS = .ok msg) :
    msg.Platform = "YouTube" ∧ msg.ID ≠ "" := by
  simp only [buildMessage] at h
  split at h
  · exact Except.noConfusion h
  · obtain rfl := ((Except.ok.injEq _ _).mp h).symm
    refine ⟨rfl, ?_⟩
    by_cases hid : renderer.id == ""
    · simp only [hid, if_pos]
      exact str_yt_ne_empty _
    · simp only [hid, Bool.false_eq_true, if_false]
      exact fun hc => (by simpa using hid : ¬renderer.id = "") hc

/-! ## Claim C9 -/

/-- C9: every message emitted with `ok` by the Twitch line parser or the
YouTube renderer builder has a nonempty id (a deterministic one is
synthesized when the source omits it) and a recognized platform value
(`Twitch` respectively `YouTube`). -/
theorem emitted_messages_id_platform :
    (∀ line channel nowNS msg, parsePrivmsg line channel nowNS = some msg →
        msg.ID ≠ "" ∧ msg.Platform = "Twitch") ∧
    (∀ renderer nowNS msg, buildMessage renderer nowNS = .ok msg →
        msg.ID ≠ "" ∧ msg.Platform = "YouTube") :=
  ⟨fun line channel nowNS msg h =>
    have hc := parsePrivmsg_char line channel nowNS msg h
    ⟨hc.2.2.1, hc.1⟩,
   fun renderer nowNS msg h =>
    have hc := buildMessage_char renderer nowNS msg h
    ⟨hc.2, hc.1⟩⟩

/-- Witness for C9: one concrete parsed Twitch line and one concrete
YouTube renderer. -/
theorem emitted_messages_id_platform_witness :
    ((mkPrivmsg [] "bob!b@x" "hi" ":bob!b@x PRIVMSG #chan :hi" "chan" 5).ID ≠ "" ∧
     (mkPrivmsg [] "bob!b@x" "hi" ":bob!b@x PRIVMSG #chan :hi" "chan" 5).Platform =
       "Twitch") ∧
    ∃ m, buildMessage ⟨"m1", .simpleTextName "Bob", .simpleTextMsg "hello",
          none, none, none, some "1700000000000000"⟩ 7 = .ok m ∧
        m.ID ≠ "" ∧ m.Platform = "YouTube" :=
  ⟨emitted_messages_id_platform.1 ":bob!b@x PRIVMSG #chan :hi" "chan" 5 _ (by decide),
   ⟨_, rfl, emitted_messages_id_platform.2 ⟨"m1", .simpleTextName "Bob",
      .simpleTextMsg "hello", none, none, none, some "1700000000000000"⟩ 7 _ rfl⟩⟩

/-! ## Idempotence helper lemmas -/

/-- Parsing the same line twice yields the same platform and — when the
source supplies a native id — the same platform message id, independently
of the receive times. -/
theorem parse_key_deterministic (line channel : String) (n1 n2 : Int)
    (m1 m2 : ChatMessage)
    (h1 : parsePrivmsg line channel n1 = some m1)
    (h2 : parsePrivmsg line channel n2 = some m2)
    (hnative : ∀ tags pfx text, privmsgPayload line channel = some (tags, pfx, text) →
        mapGet tags "id" ≠ "") :
    m1.Platform = m2.Platform ∧ m1.PlatformMsgID = m2.PlatformMsgID := by
  rw [parsePrivmsg, Option.map_eq_some'] at h1 h2
  obtain ⟨⟨tags, pfx, text⟩, hp, rfl⟩ := h1
  obtain ⟨⟨tags', pfx', text'⟩, hp', rfl⟩ := h2
  rw [hp] at hp'
  obtain ⟨rfl, rfl, rfl⟩ : tags = tags' ∧ pfx = pfx' ∧ text = text' := by
    simpa using hp'
  have hne := hnative tags pfx text hp
  exact ⟨rfl, by simp only [mkPrivmsg, if_neg hne]⟩

/-! ## Claim C10 (code bug) -/

/-- The head of a left-trimmed list is never whitespace. -/
theorem chTrimLeft_no_ws_head (l : List Char) :
    ∀ c, (chTrimLeft l).head? = some c → c.isWhitespace = false := by
  induction l with
  | nil => intro c hc; simp [chTrimLeft] at hc
  | cons a t ih =>
    intro c hc
    rw [chTrimLeft] at hc
    by_cases hw : a.isWhitespace
    · rw [if_pos hw] at hc
      exact ih c hc
    · rw [if_neg hw] at hc
      obtain rfl : a = c := by simpa using hc
      simpa using hw

/-- Left-trimming a list whose head is not whitespace does nothing. -/
theorem chTrimLeft_eq_self (l : List Char)
    (h : ∀ c, l.head? = some c → c.isWhitespace = false) : chTrimLeft l = l := by
  cases l with
  | nil => rfl
  | cons a t =>
    rw [chTrimLeft, if_neg]
    simp [h a rfl]

/-- The left-trim of a list is one of its tails. -/
theorem chTrimLeft_suffix (l : List Char) : chTrimLeft l <:+ l := by
  induction l with
  | nil => exact List.suffix_refl _
  | cons a t ih =>
    rw [chTrimLeft]
    by_cases hw : a.isWhitespace
    · rw [if_pos hw]
      exact ih.trans (List.suffix_cons a t)
    · rw [if_neg hw]

/-- A nonempty left-trim keeps the last element. -/
theorem chTrimLeft_getLast? (l : List Char) (h : chTrimLeft l ≠ []) :
    (chTrimLeft l).getLast? = l.getLast? := by
  obtain ⟨pre, hpre⟩ := chTrimLeft_suffix l
  conv_rhs => rw [← hpre]
  exact (List.getLast?_append_of_ne_nil _ h).symm

/-- `strings.TrimSpace` is idempotent. -/
theorem strTrim_idem (s : String) : strTrim (strTrim s) = strTrim s := by
  show (⟨chTrimLeft (chTrimLeft (strTrim s).data.reverse).reverse⟩ : String) = strTrim s
  have hy : (strTrim s).data = chTrimLeft (chTrimLeft s.data.reverse).reverse := rfl
  have hA : chTrimLeft (strTrim s).data.reverse = (strTrim s).data.reverse := by
    apply chTrimLeft_eq_self
    intro c hc
    rw [List.head?_reverse, hy] at hc
    have hne : chTrimLeft (chTrimLeft s.data.reverse).reverse ≠ [] := by
      intro hnil
      rw [hnil] at hc
      simp at hc
    rw [chTrimLeft_getLast? _ hne, List.getLast?_reverse] at hc
    exact chTrimLeft_no_ws_head _ c hc
  rw [hA, List.reverse_reverse]
  have hB : chTrimLeft (strTrim s).data = (strTrim s).data := by
    apply chTrimLeft_eq_self
    intro c hc
    rw [hy] at hc
    exact chTrimLeft_no_ws_head _ c hc
  rw [hB]

/-- A refresh call either fails having written nothing, or succeeds with
exactly one token-file write. -/
theorem refresh_shape (cfg : RefreshConfig) (resp : RefreshHTTPResponse) :
    (∃ e, Refresh cfg resp = (.error e, [])) ∨
    (∃ t w, Refresh cfg resp = (.ok t, [w])) := by
  simp only [Refresh]
  split
  · exact Or.inl ⟨_, rfl⟩
  · split
    · exact Or.inl ⟨_, rfl⟩
    · split
      · exact Or.inl ⟨_, rfl⟩
      · split
        · exact Or.inl ⟨_, rfl⟩
        · split
          · exact Or.inl ⟨_, rfl⟩
          · exact Or.inr ⟨_, _, rfl⟩

/-! ## Claim C7 -/

/-- C7: with complete configuration, a non-success response yields the
provider's message verbatim as the error; a success response with an
empty access token yields the empty-token error; only on success is the
normalized token persisted, with `0600` permissions and an fsync; and no
error path performs a token-file write. -/
theorem refresh_error_paths_and_persist (cfg : RefreshConfig)
    (resp : RefreshHTTPResponse)
    (hid : strTrim cfg.clientID ≠ "") (hsec : strTrim cfg.clientSecret ≠ "")
    (hrt : strTrim cfg.refreshToken ≠ "") (hfile : strTrim cfg.tokenFile ≠ "") :
    (resp.statusCode ≠ 200 → strTrim resp.message = resp.message →
      resp.message ≠ "" → Refresh cfg resp = (.error resp.message, [])) ∧
    (resp.statusCode = 200 → strTrim resp.accessToken = "" →
      Refresh cfg resp = (.error "twitch: refresh returned empty token", [])) ∧
    (resp.statusCode = 200 → strTrim resp.accessToken ≠ "" →
      Refresh cfg resp =
        (.ok (strTrim resp.accessToken,
            if resp.expiresIn ≤ 0 then hourNS else resp.expiresIn * secondNS),
         [{ path := strTrim cfg.tokenFile,
            content := NormalizeToken (strTrim resp.accessToken) ++ "\n",
            perm := 0o600, synced := true }])) ∧
    (∀ e, (Refresh cfg resp).1 = .error e → (Refresh cfg resp).2 = []) := by
  have c1 : (strTrim cfg.clientID == "" || strTrim cfg.clientSecret == "" ||
      strTrim cfg.refreshToken == "") = false := by simp [hid, hsec, hrt]
  have c2 : (strTrim cfg.tokenFile == "") = false := by simp [hfile]
  refine ⟨?_, ?_, ?_, ?_⟩
  · intro hst hm1 hm2
    simp only [Refresh, c1, c2, Bool.false_eq_true, if_false, if_pos hst]
    simp [refreshErrMessage, hm1, hm2]
  · intro hst he
    simp only [Refresh, c1, c2, Bool.false_eq_true, if_false, hst]
    simp [he]
  · intro hst ht
    have c4 : (strTrim resp.accessToken == "") = false := by simp [ht]
    have c5 : writeTokenFile (strTrim cfg.tokenFile)
        (NormalizeToken (strTrim resp.accessToken)) =
        .ok { path := strTrim cfg.tokenFile,
              content := NormalizeToken (strTrim resp.accessToken) ++ "\n",
              perm := 0o600, synced := true } := by
      rw [writeTokenFile, if_neg]
      simp [strTrim_idem, hfile]
    simp only [Refresh, c1, c2, Bool.false_eq_true, if_false, hst, c4, c5]
    simp
  · intro e he
    rcases refresh_shape cfg resp with ⟨e', hr⟩ | ⟨t, w, hr⟩
    · rw [hr]
    · rw [hr] at he
      exact Except.noConfusion he

/-- Witness for C7: a rejected grant, an empty-token success, and a
normal success, each at concrete values. -/
theorem refresh_error_paths_and_persist_witness :
    (Refresh ⟨"cid", "secret", "refresh", "tok.txt"⟩
        ⟨400, "", 0, 400, "invalid_grant", "", ""⟩ = (.error "invalid_grant", [])) ∧
    (Refresh ⟨"cid", "secret", "refresh", "tok.txt"⟩
        ⟨200, "  ", 0, 0, "", "", ""⟩ =
      (.error "twitch: refresh returned empty token", [])) ∧
    (Refresh ⟨"cid", "secret", "refresh", "tok.txt"⟩
        ⟨200, "abc123", 3600, 0, "", "", ""⟩ =
      (.ok ("abc123", 3600 * secondNS),
       [{ path := "tok.txt", content := "oauth:abc123\n",
          perm := 0o600, synced := true }])) := by
  refine ⟨?_, ?_, ?_⟩
  · exact (refresh_error_paths_and_persist ⟨"cid", "secret", "refresh", "tok.txt"⟩
      ⟨400, "", 0, 400, "invalid_grant", "", ""⟩ (by decide) (by decide) (by decide)
      (by decide)).1 (by decide) (by decide) (by decide)
  · exact (refresh_error_paths_and_persist ⟨"cid", "secret", "refresh", "tok.txt"⟩
      ⟨200, "  ", 0, 0, "", "", ""⟩ (by decide) (by decide) (by decide)
      (by decide)).2.1 rfl (by decide)
  · have h := (refresh_error_paths_and_persist ⟨"cid", "secret", "refresh", "tok.txt"⟩
      ⟨200, "abc123", 3600, 0, "", "", ""⟩ (by decide) (by decide) (by decide)
      (by decide)).2.2.1 rfl (by decide)
    simpa using h

/-! ## Run-list helper lemmas -/

/-- UTF-16 length is additive over concatenation. -/
theorem utf16Len_append (a b : String) :
    utf16Len (a ++ b) = utf16Len a + utf16Len b := by
  simp [utf16Len, utf16LenCh, String.data_append]

/-- The assembled text is the accumulator followed by the per-run
contributions. -/
theorem runsGo_fst (runs : List YtRun) :
    ∀ acc off, (runsGo runs acc off).1 = acc ++ specText runs := by
  induction runs with
  | nil => intro acc off; simp [runsGo, specText]
  | cons r rest ih =>
    intro acc off
    cases r with
    | textRun s =>
      rw [runsGo, ih, specText, specRunText, String.append_assoc]
    | otherRun =>
      rw [runsGo, ih, specText]
      rfl
    | emojiRun e =>
      rw [runsGo]
      by_cases hsc : emojiShortcode e = ""
      · rw [if_pos hsc]
        by_cases hl : emojiAccessibilityLabel e ≠ ""
        · rw [if_pos hl, ih, specText, specRunText, if_neg (by simp [hsc]),
            String.append_assoc]
        · rw [if_neg hl, ih, specText, specRunText, if_neg (by simp [hsc])]
          have : emojiAccessibilityLabel e = "" := by simpa using hl
          rw [this]
          rfl
      · rw [if_neg hsc]
        show (runsGo rest (acc ++ emojiShortcode e) _).1 = _
        rw [ih, specText, specRunText, if_pos hsc, String.append_assoc]

/-- Membership in a stable area-descending insertion. -/
theorem mem_insertByAreaDesc (x y : ytEmoteImage) (l : List ytEmoteImage) :
    y ∈ insertByAreaDesc x l ↔ y = x ∨ y ∈ l := by
  induction l with
  | nil => simp [insertByAreaDesc]
  | cons a t ih =>
    rw [insertByAreaDesc]
    split
    · simp
    · simp only [List.mem_cons, ih]
      tauto

/-- Inserting into an area-descending list keeps it area-descending. -/
theorem insertByAreaDesc_pairwise (x : ytEmoteImage) (l : List ytEmoteImage)
    (h : l.Pairwise (fun a b => b.width * b.height ≤ a.width * a.height)) :
    (insertByAreaDesc x l).Pairwise
      (fun a b => b.width * b.height ≤ a.width * a.height) := by
  induction l with
  | nil => simp [insertByAreaDesc]
  | cons a t ih =>
    rw [List.pairwise_cons] at h
    obtain ⟨ha, ht⟩ := h
    rw [insertByAreaDesc]
    split
    · rename_i hlt
      refine List.Pairwise.cons ?_ (List.Pairwise.cons ha ht)
      intro z hz
      rcases List.mem_cons.mp hz with rfl | hz
      · omega
      · have := ha z hz
        omega
    · rename_i hge
      refine List.Pairwise.cons ?_ (ih ht)
      intro z hz
      rcases (mem_insertByAreaDesc x z t).mp hz with rfl | hz
      · omega
      · exact ha z hz

/-- The stable sort produces an area-descending list. -/
theorem sortByAreaDesc_pairwise (l : List ytEmoteImage) :
    (sortByAreaDesc l).Pairwise
      (fun a b => b.width * b.height ≤ a.width * a.height) := by
  induction l with
  | nil => simp [sortByAreaDesc]
  | cons a t ih => exact insertByAreaDesc_pairwise a _ ih

/-- Lists of at most one element are vacuously pairwise-related. -/
theorem pairwise_of_short (R : ytEmoteImage → ytEmoteImage → Prop)
    (l : List ytEmoteImage) (h : ¬l.length > 1) : l.Pairwise R := by
  match l with
  | [] => exact List.Pairwise.nil
  | [a] => exact List.pairwise_singleton R a
  | a :: b :: t => simp at h

/-- The image list of every emote is ordered by pixel area descending. -/
theorem emojiImages_pairwise (e : YtEmoji) :
    (emojiImages e).Pairwise
      (fun a b => b.width * b.height ≤ a.width * a.height) := by
  rw [emojiImages]
  cases e.image with
  | none => exact List.Pairwise.nil
  | some im =>
    dsimp only
    split
    · exact sortByAreaDesc_pairwise _
    · exact pairwise_of_short _ _ (by assumption)

/-- Emote records come exactly from emoji runs with a shortcode, and
their single location is the UTF-16 length of the text assembled before
the shortcode. -/
theorem runsGo_emotes (runs : List YtRun) :
    ∀ acc off, off = utf16Len acc →
    ∀ em ∈ (runsGo runs acc off).2,
      (∃ pre suf, (runsGo runs acc off).1 = pre ++ em.name ++ suf ∧
        em.locations = [⟨utf16Len pre, utf16Len pre + utf16Len em.name⟩]) ∧
      ∃ e, YtRun.emojiRun e ∈ runs ∧ emojiShortcode e ≠ "" ∧
        em.name = emojiShortcode e ∧ em.images = emojiImages e ∧
        em.id = (if e.emojiId = "" then emojiShortcode e else e.emojiId) := by
  induction runs with
  | nil => intro acc off _ em hem; simp [runsGo] at hem
  | cons r rest ih =>
    intro acc off hoff em hem
    cases r with
    | textRun s =>
      rw [runsGo] at hem ⊢
      have hoff' : off + utf16Len s = utf16Len (acc ++ s) := by
        rw [utf16Len_append, hoff]
      obtain ⟨hdec, e, hmem, he⟩ := ih (acc ++ s) (off + utf16Len s) hoff' em hem
      exact ⟨hdec, e, List.mem_cons_of_mem _ hmem, he⟩
    | otherRun =>
      rw [runsGo] at hem ⊢
      obtain ⟨hdec, e, hmem, he⟩ := ih acc off hoff em hem
      exact ⟨hdec, e, List.mem_cons_of_mem _ hmem, he⟩
    | emojiRun e =>
      rw [runsGo] at hem ⊢
      by_cases hsc : emojiShortcode e = ""
      · rw [if_pos hsc] at hem ⊢
        by_cases hl : emojiAccessibilityLabel e ≠ ""
        · rw [if_pos hl] at hem ⊢
          have hoff' : off + utf16Len (emojiAccessibilityLabel e) =
              utf16Len (acc ++ emojiAccessibilityLabel e) := by
            rw [utf16Len_append, hoff]
          obtain ⟨hdec, e', hmem, he⟩ :=
            ih (acc ++ emojiAccessibilityLabel e)
              (off + utf16Len (emojiAccessibilityLabel e)) hoff' em hem
          exact ⟨hdec, e', List.mem_cons_of_mem _ hmem, he⟩
        · rw [if_neg hl] at hem ⊢
          obtain ⟨hdec, e', hmem, he⟩ := ih acc off hoff em hem
          exact ⟨hdec, e', List.mem_cons_of_mem _ hmem, he⟩
      · rw [if_neg hsc] at hem ⊢
        have hoff' : off + utf16Len (emojiShortcode e) =
            utf16Len (acc ++ emojiShortcode e) := by
          rw [utf16Len_append, hoff]
        rcases List.mem_cons.mp hem with rfl | hem'
        · refine ⟨⟨acc, specText rest, ?_, ?_⟩,
            e, List.mem_cons_self _ _, hsc, rfl, rfl, by
              by_cases hid : e.emojiId = "" <;> simp [hid]⟩
          · show (runsGo rest (acc ++ emojiShortcode e)
                (off + utf16Len (emojiShortcode e))).1 = _
            rw [runsGo_fst, String.append_assoc]
          · rw [hoff]
        · obtain ⟨hdec, e', hmem, he⟩ :=
            ih (acc ++ emojiShortcode e) (off + utf16Len (emojiShortcode e))
              hoff' em hem'
          exact ⟨hdec, e', List.mem_cons_of_mem _ hmem, he⟩

/-! ## Claim C8 -/

/-- C8: the assembled text is the concatenation of literal runs and, for
each emoji run, its shortcode, or its accessibility label when no
shortcode exists; an emote record is produced only for emoji runs that
produced a shortcode; its single start/stop offset pair is counted in
UTF-16 code units into the assembled text (the start is the UTF-16
length of the text preceding the shortcode, the stop adds the
shortcode's UTF-16 length); and its image variants are ordered by pixel
area (width × height) descending. -/
theorem runs_text_emotes_characterization (runs : List YtRun) :
    (runsTextAndEmotes runs).1 = specText runs ∧
    ∀ em ∈ (runsTextAndEmotes runs).2,
      (∃ pre suf, (runsTextAndEmotes runs).1 = pre ++ em.name ++ suf ∧
          em.locations = [⟨utf16Len pre, utf16Len pre + utf16Len em.name⟩]) ∧
      (∃ e, YtRun.emojiRun e ∈ runs ∧ emojiShortcode e ≠ "" ∧
          em.name = emojiShortcode e ∧ em.images = emojiImages e ∧
          em.id = (if e.emojiId = "" then emojiShortcode e else e.emojiId)) ∧
      em.images.Pairwise (fun a b => b.width * b.height ≤ a.width * a.height) := by
  constructor
  · rw [runsTextAndEmotes, runsGo_fst]
    rfl
  · intro em hem
    obtain ⟨hdec, e, hmem, hsc, hname, himg, hid⟩ :=
      runsGo_emotes runs "" 0 rfl em hem
    refine ⟨hdec, ⟨e, hmem, hsc, hname, himg, hid⟩, ?_⟩
    rw [himg]
    exact emojiImages_pairwise e

/-- Witness for C8: a run list whose literal text contains an
astral-plane character, so the emote offsets visibly count UTF-16 code
units (`𝄞a ` has UTF-16 length 4), and whose emoji carries two image
variants delivered area-descending. -/
theorem runs_text_emotes_witness :
    (runsTextAndEmotes [.textRun "𝄞a ",
        .emojiRun ⟨[" :sm: "], "emo1", some ⟨"smile",
          [⟨"u1", 2, 2⟩, ⟨"u2", 4, 4⟩]⟩⟩]).1 = "𝄞a :sm:" ∧
    ((∃ pre suf, (runsTextAndEmotes [.textRun "𝄞a ",
        .emojiRun ⟨[" :sm: "], "emo1", some ⟨"smile",
          [⟨"u1", 2, 2⟩, ⟨"u2", 4, 4⟩]⟩⟩]).1 = pre ++ ":sm:" ++ suf ∧
      ([⟨4, 8⟩] : List ytEmoteLocation) =
        [⟨utf16Len pre, utf16Len pre + utf16Len ":sm:"⟩]) ∧
     ([⟨"u2", 4, 4⟩, ⟨"u1", 2, 2⟩] : List ytEmoteImage).Pairwise
        (fun a b => b.width * b.height ≤ a.width * a.height)) := by
  have h := runs_text_emotes_characterization [.textRun "𝄞a ",
      .emojiRun ⟨[" :sm: "], "emo1", some ⟨"smile", [⟨"u1", 2, 2⟩, ⟨"u2", 4, 4⟩]⟩⟩]
  refine ⟨h.1.trans (by decide), ?_⟩
  have h2 := h.2 ⟨"emo1", ":sm:", [⟨4, 8⟩], [⟨"u2", 4, 4⟩, ⟨"u1", 2, 2⟩]⟩ (by decide)
  exact ⟨h2.1, h2.2.2⟩
